import Mathlib

/-!
Shallow embedding of the go-vela worker's step lifecycle
(`executor/linux/step.go`) and the Kubernetes runtime volume stubs
(`runtime/kubernetes/volume.go`), together with theorems settling the
frozen specification claims about them.

Modelling conventions:
* Go maps (`ctn.Environment`, the `sync.Map`s `c.steps` / `c.stepLogs`)
  become association lists with overwrite-on-store semantics; a Go map
  read of an absent key yields the zero value `""`.
* Byte streams are `List Nat` (a byte per element, `10` = newline,
  `13` = carriage return).
* The control-plane API and the container runtime are oracles: functions
  supplied as parameters returning `Except String`-results, so theorems
  quantify over every possible outcome.
* Fallible Go functions returning `error` become `Except String` values;
  the error strings are the ones the source formats.
-/

namespace Vela

/-- A Go `map[string]string`, as an association list.  Stores overwrite. -/
abbrev Env := List (String × String)

/-- Association-list lookup (first binding wins; `envSet` keeps keys unique). -/
def envGet? (env : Env) (k : String) : Option String :=
  match env with
  | [] => none
  | (k', v) :: rest => if k' = k then some v else envGet? rest k

/-- Go map read: an absent key yields the zero value `""`. -/
def envGet (env : Env) (k : String) : String :=
  (envGet? env k).getD ""

/-- Go map write: replace the binding for `k` if present, else append it. -/
def envSet (env : Env) (k v : String) : Env :=
  match env with
  | [] => [(k, v)]
  | (k', v') :: rest => if k' = k then (k, v) :: rest else (k', v') :: envSet rest k v

/-- Generic keyed store used for the client's `sync.Map`s (`Store`). -/
def storeKV {α : Type} (m : List (String × α)) (k : String) (v : α) : List (String × α) :=
  match m with
  | [] => [(k, v)]
  | (k', v') :: rest => if k' = k then (k, v) :: rest else (k', v') :: storeKV rest k v

/-- Generic keyed load used for the client's `sync.Map`s (`Load`). -/
def loadKV {α : Type} (m : List (String × α)) (k : String) : Option α :=
  match m with
  | [] => none
  | (k', v) :: rest => if k' = k then some v else loadKV rest k

/-- `pipeline.Container`: the fields of the Go struct that the step
lifecycle reads or writes. -/
structure Container where
  id : String
  name : String
  number : Nat
  image : String
  commands : List String
  environment : Env
  detach : Bool
deriving Repr, DecidableEq

/-- `library.Step`: the fields populated by `PlanStep`. -/
structure Step where
  name : String
  number : Nat
  status : String
  started : Int
  host : String
  runtime : String
  distribution : String
deriving Repr, DecidableEq

/-- `library.Log`: the append-only per-container log record (`Data`). -/
structure Log where
  data : List Nat
deriving Repr, DecidableEq

/-- `constants.StatusRunning` from go-vela/types. -/
def statusRunning : String := "running"

/-- `constants.StatusSuccess` from go-vela/types. -/
def statusSuccess : String := "success"

/-- The per-build mutable client state the step lifecycle touches:
the `c.steps` and `c.stepLogs` sync.Maps, keyed by container ID. -/
structure ClientState where
  steps : List (String × Step)
  stepLogs : List (String × Log)
deriving Repr, DecidableEq

/-- A runtime call made on the executor's thread of `ExecStep` /
`CreateStep` / `DestroyStep` (the tail happens on the streamer thread). -/
inductive Event where
  | setupContainer (c : Container)
  | runContainer (c : Container)
  | waitContainer (c : Container)
  | inspectContainer (c : Container)
  | removeContainer (c : Container)
deriving Repr, DecidableEq

/-- Outcomes of the runtime calls, supplied as an oracle so theorems
range over every behaviour of the container runtime. -/
structure RuntimeOracle where
  setup : Container → Except String Unit
  run : Container → Except String Unit
  wait : Container → Except String Unit
  inspect : Container → Except String Unit
  remove : Container → Except String Unit

/-! ## Kubernetes runtime volume stubs (`runtime/kubernetes/volume.go`) -/

/-- `pipeline.Build`: the pipeline passed to the volume operations
(the stubs ignore every field). -/
structure Build where
  id : String
  version : String
  steps : List Container
deriving Repr, DecidableEq

/-- `CreateVolume` of the Kubernetes driver: `return nil`. -/
def kubernetesCreateVolume (_b : Build) : Option String :=
  none

/-- `InspectVolume` of the Kubernetes driver: `return nil, nil`
(the byte slice and the error are both nil). -/
def kubernetesInspectVolume (_b : Build) : Option (List Nat) × Option String :=
  (none, none)

/-- `RemoveVolume` of the Kubernetes driver: `return nil`. -/
def kubernetesRemoveVolume (_b : Build) : Option String :=
  none

/-! ## CreateStep (`executor/linux/step.go` lines 26-91) -/

/-- One character of Go's `fmt.Sprintf("%q", s)` (`strconv.Quote`),
modelled for the common escapes; other characters pass through. -/
def goQuoteChar (c : Char) : List Char :=
  if c = '"' then ['\\', '"']
  else if c = '\\' then ['\\', '\\']
  else if c = '\n' then ['\\', 'n']
  else if c = '\r' then ['\\', 'r']
  else if c = '\t' then ['\\', 't']
  else [c]

/-- Go `fmt.Sprintf("%q", s)`: the double-quoted escaped form of `s`. -/
def goQuote (s : String) : String :=
  String.mk ('"' :: (s.toList.flatMap goQuoteChar ++ ['"']))

/-- Characters a substitution variable name may consist of
(github.com/drone/envsubst identifier characters). -/
def isIdentChar (c : Char) : Bool :=
  c.isAlphanum || c == '_'

/-- Models `envsubst.Eval` from github.com/drone/envsubst for the basic
substitution forms: literal text, `$NAME`, and a brace form whose body
is an identifier; an unterminated brace form is a bad-substitution
error.  `fuel` bounds the recursion; each call consumes at least one
input character, so `length + 1` fuel always suffices. -/
def substAux (f : String → String) : Nat → List Char → Except String (List Char)
  | 0, _ => .error "substitution recursion limit"
  | _ + 1, [] => .ok []
  | fuel + 1, '$' :: rest =>
    match rest with
    | '{' :: rest2 =>
      (match rest2.dropWhile isIdentChar with
       | '}' :: tail =>
         (match substAux f fuel tail with
          | .ok out => .ok ((f (String.mk (rest2.takeWhile isIdentChar))).toList ++ out)
          | .error e => .error e)
       | _ => .error "bad substitution")
    | c :: rest2 =>
      if isIdentChar c then
        match substAux f fuel ((c :: rest2).dropWhile isIdentChar) with
        | .ok out => .ok ((f (String.mk ((c :: rest2).takeWhile isIdentChar))).toList ++ out)
        | .error e => .error e
      else
        match substAux f fuel (c :: rest2) with
        | .ok out => .ok ('$' :: out)
        | .error e => .error e
    | [] => .ok ['$']
  | fuel + 1, c :: rest =>
    match substAux f fuel rest with
    | .ok out => .ok (c :: out)
    | .error e => .error e

/-- `envsubst.Eval(template, mapping)`. -/
def envsubstEval (template : String) (f : String → String) : Except String String :=
  match substAux f (template.toList.length + 1) template.toList with
  | .ok out => .ok (String.mk out)
  | .error e => .error e

/-- Go's `strings.Contains(s, "\n")`: whether a newline occurs in `s`. -/
def containsNewline (s : String) : Bool :=
  s.toList.contains '\n'

/-- The substitute function `subFunc` built inside `CreateStep`:
look the name up in the container's own environment (absent names give
Go's zero value `""`); a value containing a newline is replaced by its
`%q`-quoted form. -/
def subFunc (env : Env) (name : String) : String :=
  if containsNewline (envGet env name) then goQuote (envGet env name)
  else envGet env name

/-- The well-known environment injection at the top of `CreateStep`
(lines 33-38): `BUILD_HOST`/`VELA_HOST` from the client hostname,
`VELA_VERSION` from the worker version, and the hardcoded
`VELA_RUNTIME="docker"`, `VELA_DISTRIBUTION="linux"`. -/
def injectEnv (hostname ver : String) (env : Env) : Env :=
  envSet (envSet (envSet (envSet (envSet env
    "BUILD_HOST" hostname)
    "VELA_HOST" hostname)
    "VELA_VERSION" ver)
    "VELA_RUNTIME" "docker")
    "VELA_DISTRIBUTION" "linux"

/-- The container as it stands after `CreateStep`'s environment
injection (and before the `init` check). -/
def createStepInject (hostname ver : String) (ctn : Container) : Container :=
  { ctn with environment := injectEnv hostname ver ctn.environment }

/-- `CreateStep`.  `secretsInject` stands for the package's
`injectSecrets` helper (its file is not part of the verified sources) and
`marshal` / `unmarshal` stand for `encoding/json`'s `Marshal` /
`Unmarshal` into the existing container — all three are oracles the
theorems quantify over.  The result is the final container (Go mutates
`ctn` in place) and the runtime-call trace. -/
def createStep (hostname ver : String) (oracle : RuntimeOracle)
    (secretsInject : Container → Except String Container)
    (marshal : Container → Except String String)
    (unmarshal : String → Container → Option Container)
    (ctn : Container) : Except String Container × List Event :=
  if (createStepInject hostname ver ctn).name = "init" then
    (.ok (createStepInject hostname ver ctn), [])
  else
    match oracle.setup (createStepInject hostname ver ctn) with
    | .error e => (.error e, [.setupContainer (createStepInject hostname ver ctn)])
    | .ok _ =>
      match secretsInject (createStepInject hostname ver ctn) with
      | .error e => (.error e, [.setupContainer (createStepInject hostname ver ctn)])
      | .ok ctn2 =>
        match marshal ctn2 with
        | .error e =>
          (.error ("unable to marshal configuration: " ++ e),
            [.setupContainer (createStepInject hostname ver ctn)])
        | .ok body =>
          match envsubstEval body (subFunc ctn2.environment) with
          | .error e =>
            (.error ("unable to substitute environment variables: " ++ e),
              [.setupContainer (createStepInject hostname ver ctn)])
          | .ok subStep =>
            match unmarshal subStep ctn2 with
            | none =>
              (.error "unable to unmarshal configuration",
                [.setupContainer (createStepInject hostname ver ctn)])
            | some ctn3 => (.ok ctn3, [.setupContainer (createStepInject hostname ver ctn)])

/-! ## PlanStep (`executor/linux/step.go` lines 93-139) -/

/-- Outcomes of the control-plane API calls `PlanStep` makes:
`Step.Update` returns the persisted step record, `Log.GetStep` returns
the step's log record. -/
structure VelaOracle where
  stepUpdate : Step → Except String Step
  logGetStep : Nat → Except String Log

/-- The initial step record `PlanStep` builds before uploading:
`Status=Running`, `Started=now`, host/runtime/distribution read from the
container's injected environment. -/
def planStepRecord (now : Int) (ctn : Container) : Step :=
  { name := ctn.name
    number := ctn.number
    status := statusRunning
    started := now
    host := envGet ctn.environment "VELA_HOST"
    runtime := envGet ctn.environment "VELA_RUNTIME"
    distribution := envGet ctn.environment "VELA_DISTRIBUTION" }

/-- `PlanStep`: upload the initial record via `Step.Update`, overwrite
the returned record's status with the synthetic `Success` default, store
it under the container ID, fetch the step log via `Log.GetStep` (at the
returned record's number) and store it under the same ID.  Returns the
updated client state and the `Step.Update` payload. -/
def planStep (now : Int) (api : VelaOracle) (st : ClientState) (ctn : Container) :
    Except String ClientState × Step :=
  let s := planStepRecord now ctn
  match api.stepUpdate s with
  | .error e => (.error e, s)
  | .ok s1 =>
    let s2 := { s1 with status := statusSuccess }
    let st1 := { st with steps := storeKV st.steps ctn.id s2 }
    match api.logGetStep s2.number with
    | .error e => (.error e, s)
    | .ok l => (.ok { st1 with stepLogs := storeKV st1.stepLogs ctn.id l }, s)

/-! ## ExecStep and DestroyStep (`executor/linux/step.go` lines 141-264) -/

/-- `ExecStep`'s behaviour on the executor's own thread: the `init`
short-circuit, the step-log lookup, `RunContainer`, the spawn of the log
streamer goroutine (reported by the `Bool`, which is `true` iff the
goroutine was started), the `Detach` early return, then `WaitContainer`
and `InspectContainer`.  The client state is never written on this
thread. -/
def execStep (oracle : RuntimeOracle) (st : ClientState) (ctn : Container) :
    Except String Unit × List Event × Bool :=
  if ctn.name = "init" then
    (.ok (), [], false)
  else
    match loadKV st.stepLogs ctn.id with
    | none => (.error "unable to get step log from client", [], false)
    | some _ =>
      match oracle.run ctn with
      | .error e => (.error e, [.runContainer ctn], false)
      | .ok _ =>
        if ctn.detach then
          (.ok (), [.runContainer ctn], true)
        else
          match oracle.wait ctn with
          | .error e => (.error e, [.runContainer ctn, .waitContainer ctn], true)
          | .ok _ =>
            match oracle.inspect ctn with
            | .error e =>
              (.error e, [.runContainer ctn, .waitContainer ctn, .inspectContainer ctn], true)
            | .ok _ =>
              (.ok (), [.runContainer ctn, .waitContainer ctn, .inspectContainer ctn], true)

/-- `DestroyStep`: skip `init`, otherwise `RemoveContainer`. -/
def destroyStep (oracle : RuntimeOracle) (ctn : Container) :
    Except String Unit × List Event :=
  if ctn.name = "init" then
    (.ok (), [])
  else
    match oracle.remove ctn with
    | .error e => (.error e, [.removeContainer ctn])
    | .ok _ => (.ok (), [.removeContainer ctn])

/-! ## The log streamer goroutine (`executor/linux/step.go` lines 172-220)

The goroutine tails the container, scans the output with a
`bufio.Scanner` (default `ScanLines` split and default 64 KiB token
limit), accumulates each line plus a newline into a local
`bytes.Buffer`, and flushes the accumulated record to `Log.UpdateStep`
whenever the buffer holds more than 1000 bytes, plus one final flush
when scanning stops.  A failed mid-scan upload makes the goroutine
return (its error is discarded by `go func`). -/

/-- `bufio.ScanLines`' `dropCR`: strip one trailing carriage return. -/
def dropCR (l : List Nat) : List Nat :=
  if l.getLast? = some 13 then l.dropLast else l

/-- Split a byte stream at each newline byte; the final element is the
(possibly empty) segment after the last newline. -/
def splitNL : List Nat → List (List Nat)
  | [] => [[]]
  | b :: rest =>
    if b = 10 then [] :: splitNL rest
    else
      match splitNL rest with
      | [] => [[b]]
      | s :: ss => (b :: s) :: ss

/-- The token sequence a `bufio.Scanner` with `ScanLines` yields from
the segments of the stream, and whether scanning stopped early with
`ErrTooLong`: a segment of at least `maxTok` bytes cannot fit the
scanner's buffer together with its newline, a final empty segment
yields no token, and every token has a trailing `\x0d` stripped. -/
def scanSegs (maxTok : Nat) : List (List Nat) → List (List Nat) × Bool
  | [] => ([], false)
  | [seg] =>
    if seg.isEmpty then ([], false)
    else if maxTok ≤ seg.length then ([], true)
    else ([dropCR seg], false)
  | seg :: seg2 :: rest =>
    if maxTok ≤ seg.length then ([], true)
    else
      let r := scanSegs maxTok (seg2 :: rest)
      (dropCR seg :: r.1, r.2)

/-- All tokens `scanner.Scan`/`scanner.Bytes` yields on a stream. -/
def scanTokens (maxTok : Nat) (content : List Nat) : List (List Nat) × Bool :=
  scanSegs maxTok (splitNL content)

/-- `bufio.MaxScanTokenSize`, the default scanner buffer limit. -/
def maxScanTokenSize : Nat := 65536

/-- The streamer goroutine's state: the local `bytes.Buffer` `logs`, the
log record's cumulative `Data`, and the payloads passed so far to
`Log.UpdateStep` (each call's payload is the whole record data). -/
structure StreamState where
  logs : List Nat
  data : List Nat
  uploads : List (List Nat)
deriving Repr, DecidableEq

/-- The scan loop of the goroutine.  `fails k` tells whether the `k`-th
`Log.UpdateStep` call (counting from 0) returns an error; on a failed
call the goroutine returns immediately (`Bool` result `true`), reading
no further lines.  On success the API returns the persisted record,
which per the control-plane contract equals the uploaded one. -/
def streamScan (fails : Nat → Bool) : List (List Nat) → StreamState → StreamState × Bool
  | [], st => (st, false)
  | tok :: rest, st =>
    let logs1 := st.logs ++ tok ++ [10]
    if 1000 < logs1.length then
      let data1 := st.data ++ logs1
      if fails st.uploads.length then
        (⟨logs1, data1, st.uploads ++ [data1]⟩, true)
      else
        streamScan fails rest ⟨[], data1, st.uploads ++ [data1]⟩
    else
      streamScan fails rest ⟨logs1, st.data, st.uploads⟩

/-- The whole goroutine on a given tail-stream content: scan, run the
loop from an empty buffer on the record's initial data, and — unless a
mid-scan upload aborted the goroutine — append the remaining buffered
bytes and upload once more.  The `Bool` is `true` iff the goroutine
returned early from inside the scan loop. -/
def streamer (fails : Nat → Bool) (maxTok : Nat) (init content : List Nat) :
    StreamState × Bool :=
  let toks := (scanTokens maxTok content).1
  let r := streamScan fails toks ⟨[], init, []⟩
  if r.2 then
    (r.1, true)
  else
    let data1 := r.1.data ++ r.1.logs
    (⟨r.1.logs, data1, r.1.uploads ++ [data1]⟩, false)

/-- The always-succeeding upload oracle. -/
def noFail : Nat → Bool := fun _ => false

/-- The upload oracle whose `k`-th call fails (and only that one): the
first failing upload sits at position `k`. -/
def failAt (k : Nat) : Nat → Bool := fun i => i == k

/-- Concatenation of scanned lines the way the goroutine materialises
them: each token followed by the newline the scanner stripped. -/
def flatJoin (ts : List (List Nat)) : List Nat :=
  ts.flatMap (fun t => t ++ [10])

/-- Rejoin the segments of `splitNL` with the newlines that separated
them (inverse of `splitNL`). -/
def joinNL : List (List Nat) → List Nat
  | [] => []
  | [s] => s
  | s :: s2 :: ss => s ++ 10 :: joinNL (s2 :: ss)

/-- The log-streamer flush discipline exactly as the specification
words it: each scanned line (plus newline) is appended to the local
buffer; whenever the buffer exceeds 1000 bytes it is concatenated onto
the persistent record, that record is uploaded, and the buffer is
reset; when the stream closes the remaining buffered bytes (possibly
zero) are appended and uploaded in one final call.  Returns the final
record and the upload payloads; it is the specification side of the
refinement theorem for the code's `streamScan`/`streamer`. -/
def specStream (record : List Nat) : List (List Nat) → List Nat → List Nat × List (List Nat)
  | [], buf =>
    let rec1 := record ++ buf
    (rec1, [rec1])
  | line :: rest, buf =>
    let buf1 := buf ++ line ++ [10]
    if 1000 < buf1.length then
      let rec1 := record ++ buf1
      let r := specStream rec1 rest []
      (r.1, rec1 :: r.2)
    else
      specStream record rest buf1

/-! ## Concrete fixtures used by witnesses -/

/-- A runtime whose every call succeeds. -/
def allOk : RuntimeOracle :=
  { setup := fun _ => .ok ()
    run := fun _ => .ok ()
    wait := fun _ => .ok ()
    inspect := fun _ => .ok ()
    remove := fun _ => .ok () }

/-- A control-plane oracle that echoes the uploaded step record and
returns an empty log record. -/
def apiEcho : VelaOracle :=
  { stepUpdate := fun s => .ok s
    logGetStep := fun _ => .ok ⟨[]⟩ }

/-- A sample ordinary step container. -/
def echoCtn : Container :=
  { id := "step_1", name := "echo", number := 1, image := "alpine"
    commands := ["echo hello"], environment := [("FOO", "bar")], detach := false }

/-- A sample detached container. -/
def detachCtn : Container :=
  { echoCtn with id := "step_2", name := "svc", number := 2, detach := true }

/-- The synthetic `init` marker container. -/
def initCtn : Container :=
  { echoCtn with id := "step_0", name := "init", number := 0 }

/-- A tail-stream content whose first scanned line overflows the flush
threshold (1001 bytes of `a` plus newline) and which carries one more
line (`b`) after it. -/
def crashContent : List Nat :=
  List.replicate 1001 97 ++ [10, 98, 10]

/-! ## Helper lemmas -/

theorem envGet?_envSet_self (env : Env) (k v : String) :
    envGet? (envSet env k v) k = some v := by
  induction env with
  | nil => simp [envSet, envGet?]
  | cons hd tl ih =>
    obtain ⟨k', v'⟩ := hd
    by_cases h : k' = k
    · simp [envSet, envGet?, h]
    · simpa [envSet, envGet?, h] using ih

theorem envGet?_envSet_ne (env : Env) (k v k' : String) (h : k' ≠ k) :
    envGet? (envSet env k v) k' = envGet? env k' := by
  induction env with
  | nil => simp [envSet, envGet?, Ne.symm h]
  | cons hd tl ih =>
    obtain ⟨k₀, v₀⟩ := hd
    by_cases hk : k₀ = k
    · subst hk
      simp [envSet, envGet?, Ne.symm h]
    · by_cases hk' : k₀ = k'
      · simp [envSet, envGet?, hk, hk', h]
      · simpa [envSet, envGet?, hk, hk'] using ih

theorem envGet_envSet_self (env : Env) (k v : String) :
    envGet (envSet env k v) k = v := by
  simp [envGet, envGet?_envSet_self]

theorem envGet_envSet_ne (env : Env) (k v k' : String) (h : k' ≠ k) :
    envGet (envSet env k v) k' = envGet env k' := by
  simp [envGet, envGet?_envSet_ne env k v k' h]

theorem getLast?_eq_some_mem {l : List Nat} {a : Nat} (h : l.getLast? = some a) :
    a ∈ l := by
  induction l with
  | nil => simp at h
  | cons b t ih =>
    cases t with
    | nil =>
      simp [List.getLast?] at h
      simp [h]
    | cons c t' =>
      rw [List.getLast?_cons_cons] at h
      exact List.mem_cons_of_mem b (ih h)

theorem dropCR_of_not_mem {seg : List Nat} (h : (13 : Nat) ∉ seg) :
    dropCR seg = seg := by
  unfold dropCR
  split
  · next hl => exact absurd (getLast?_eq_some_mem hl) h
  · rfl

theorem splitNL_ne_nil (c : List Nat) : splitNL c ≠ [] := by
  cases c with
  | nil => simp [splitNL]
  | cons b rest =>
    simp only [splitNL]
    split
    · simp
    · split <;> simp

theorem joinNL_cons_cons (b : Nat) (s : List Nat) (ss : List (List Nat)) :
    joinNL ((b :: s) :: ss) = b :: joinNL (s :: ss) := by
  cases ss <;> rfl

theorem joinNL_splitNL (c : List Nat) : joinNL (splitNL c) = c := by
  induction c with
  | nil => rfl
  | cons b rest ih =>
    by_cases hb : b = 10
    · subst hb
      rw [show splitNL (10 :: rest) = [] :: splitNL rest by simp [splitNL]]
      cases hs : splitNL rest with
      | nil => exact absurd hs (splitNL_ne_nil rest)
      | cons s ss =>
        have : joinNL ([] :: s :: ss) = 10 :: joinNL (s :: ss) := rfl
        rw [this, ← hs, ih]
    · rw [show splitNL (b :: rest) =
          (match splitNL rest with
           | [] => [[b]]
           | s :: ss => (b :: s) :: ss) by simp [splitNL, hb]]
      cases hs : splitNL rest with
      | nil => exact absurd hs (splitNL_ne_nil rest)
      | cons s ss =>
        rw [joinNL_cons_cons, ← hs, ih]

theorem mem_joinNL {x : Nat} {seg : List Nat} {ss : List (List Nat)}
    (hseg : seg ∈ ss) (hx : x ∈ seg) : x ∈ joinNL ss := by
  induction ss with
  | nil => simp at hseg
  | cons s ss' ih =>
    cases ss' with
    | nil =>
      simp at hseg
      subst hseg
      exact hx
    | cons s2 rest =>
      rcases List.mem_cons.mp hseg with h | h
      · subst h
        exact List.mem_append_left _ hx
      · exact List.mem_append_right _ (List.mem_cons_of_mem _ (ih h))

theorem mem_splitNL {x : Nat} {seg c : List Nat}
    (hseg : seg ∈ splitNL c) (hx : x ∈ seg) : x ∈ c := by
  have := mem_joinNL hseg hx
  rwa [joinNL_splitNL] at this

theorem flatJoin_cons (t : List Nat) (ts : List (List Nat)) :
    flatJoin (t :: ts) = t ++ 10 :: flatJoin ts := by
  simp [flatJoin]

theorem scanSegs_join {M : Nat} (segs : List (List Nat))
    (hlen : ∀ seg ∈ segs, seg.length < M)
    (hcr : ∀ seg ∈ segs, (13 : Nat) ∉ seg) :
    flatJoin (scanSegs M segs).1 = joinNL segs ∨
    flatJoin (scanSegs M segs).1 = joinNL segs ++ [10] := by
  induction segs with
  | nil => left; rfl
  | cons s ss ih =>
    cases ss with
    | nil =>
      by_cases he : s.isEmpty
      · left
        rw [List.isEmpty_iff] at he
        subst he
        rfl
      · have hlt : ¬ M ≤ s.length := not_le.mpr (hlen s (by simp))
        right
        rw [show scanSegs M [s] = ([dropCR s], false) by
          simp [scanSegs, he, hlt]]
        rw [dropCR_of_not_mem (hcr s (by simp))]
        show s ++ [10] ++ flatJoin [] = joinNL [s] ++ [10]
        simp [flatJoin, joinNL]
    | cons s2 rest =>
      have hlt : ¬ M ≤ s.length := not_le.mpr (hlen s (by simp))
      rw [show scanSegs M (s :: s2 :: rest) =
          (dropCR s :: (scanSegs M (s2 :: rest)).1, (scanSegs M (s2 :: rest)).2) by
        simp [scanSegs, hlt]]
      rw [show joinNL (s :: s2 :: rest) = s ++ 10 :: joinNL (s2 :: rest) from rfl]
      rw [flatJoin_cons, dropCR_of_not_mem (hcr s (by simp))]
      rcases ih (fun seg h => hlen seg (List.mem_cons_of_mem _ h))
        (fun seg h => hcr seg (List.mem_cons_of_mem _ h)) with h | h
      · left; rw [h]
      · right; rw [h]; simp

theorem streamScan_noFail (toks : List (List Nat)) (st : StreamState) :
    (streamScan noFail toks st).2 = false ∧
    (streamScan noFail toks st).1.data ++ (streamScan noFail toks st).1.logs =
      st.data ++ st.logs ++ flatJoin toks := by
  induction toks generalizing st with
  | nil => simp [streamScan, flatJoin]
  | cons tok rest ih =>
    rw [show streamScan noFail (tok :: rest) st =
        (let logs1 := st.logs ++ tok ++ [10]
         if 1000 < logs1.length then
           streamScan noFail rest ⟨[], st.data ++ logs1, st.uploads ++ [st.data ++ logs1]⟩
         else
           streamScan noFail rest ⟨logs1, st.data, st.uploads⟩) by
      simp [streamScan, noFail]]
    simp only []
    split
    · refine ⟨(ih _).1, ?_⟩
      rw [(ih _).2]
      simp [flatJoin_cons]
    · refine ⟨(ih _).1, ?_⟩
      rw [(ih _).2]
      simp [flatJoin_cons]

theorem streamScan_specStream (toks : List (List Nat)) :
    ∀ (buf data : List Nat) (ups : List (List Nat)),
    (streamScan noFail toks ⟨buf, data, ups⟩).2 = false ∧
    (streamScan noFail toks ⟨buf, data, ups⟩).1.uploads ++
        [(streamScan noFail toks ⟨buf, data, ups⟩).1.data ++
          (streamScan noFail toks ⟨buf, data, ups⟩).1.logs] =
      ups ++ (specStream data toks buf).2 ∧
    (streamScan noFail toks ⟨buf, data, ups⟩).1.data ++
        (streamScan noFail toks ⟨buf, data, ups⟩).1.logs =
      (specStream data toks buf).1 := by
  induction toks with
  | nil => intro buf data ups; simp [streamScan, specStream]
  | cons tok rest ih =>
    intro buf data ups
    rw [show streamScan noFail (tok :: rest) ⟨buf, data, ups⟩ =
        (if 1000 < (buf ++ tok ++ [10]).length then
          streamScan noFail rest
            ⟨[], data ++ (buf ++ tok ++ [10]), ups ++ [data ++ (buf ++ tok ++ [10])]⟩
        else
          streamScan noFail rest ⟨buf ++ tok ++ [10], data, ups⟩) by
      simp [streamScan, noFail]]
    rw [show specStream data (tok :: rest) buf =
        (if 1000 < (buf ++ tok ++ [10]).length then
          ((specStream (data ++ (buf ++ tok ++ [10])) rest []).1,
            (data ++ (buf ++ tok ++ [10])) :: (specStream (data ++ (buf ++ tok ++ [10])) rest []).2)
        else
          specStream data rest (buf ++ tok ++ [10])) by
      simp [specStream]]
    split
    · obtain ⟨h1, h2, h3⟩ := ih [] (data ++ (buf ++ tok ++ [10]))
        (ups ++ [data ++ (buf ++ tok ++ [10])])
      exact ⟨h1, by rw [h2]; simp, h3⟩
    · exact ih (buf ++ tok ++ [10]) data ups

theorem streamScan_failAt {k : Nat} (toks : List (List Nat)) :
    ∀ st : StreamState, st.uploads.length ≤ k →
    (streamScan (failAt k) toks st).2 = true →
    (streamScan (failAt k) toks st).1.uploads.length = k + 1 ∧
    (streamScan (failAt k) toks st).1.uploads.getLast? =
      some (streamScan (failAt k) toks st).1.data := by
  induction toks with
  | nil =>
    intro st _ habort
    simp [streamScan] at habort
  | cons tok rest ih =>
    intro st hle habort
    have hres : streamScan (failAt k) (tok :: rest) st =
        (if 1000 < (st.logs ++ tok ++ [10]).length then
          if failAt k st.uploads.length = true then
            (⟨st.logs ++ tok ++ [10], st.data ++ (st.logs ++ tok ++ [10]),
              st.uploads ++ [st.data ++ (st.logs ++ tok ++ [10])]⟩, true)
          else
            streamScan (failAt k) rest
              ⟨[], st.data ++ (st.logs ++ tok ++ [10]),
                st.uploads ++ [st.data ++ (st.logs ++ tok ++ [10])]⟩
        else
          streamScan (failAt k) rest ⟨st.logs ++ tok ++ [10], st.data, st.uploads⟩) := rfl
    by_cases hflush : 1000 < (st.logs ++ tok ++ [10]).length
    · by_cases hfail : st.uploads.length = k
      · rw [hres, if_pos hflush, if_pos (by simp [failAt, hfail])]
        refine ⟨?_, ?_⟩
        · simp [hfail]
        · simp [List.getLast?_concat]
      · rw [hres, if_pos hflush, if_neg (by simp [failAt, hfail])] at habort ⊢
        refine ih _ ?_ habort
        have : st.uploads.length < k := lt_of_le_of_ne hle hfail
        simpa using this
    · rw [hres, if_neg hflush] at habort ⊢
      exact ih _ hle habort

theorem splitNL_append_nl (xs rest : List Nat) (h : (10 : Nat) ∉ xs) :
    splitNL (xs ++ 10 :: rest) = xs :: splitNL rest := by
  induction xs with
  | nil => simp [splitNL]
  | cons b xs' ih =>
    have hb : b ≠ 10 := fun hb => h (by simp [hb])
    have h' : (10 : Nat) ∉ xs' := fun hx => h (List.mem_cons_of_mem _ hx)
    rw [List.cons_append,
      show splitNL (b :: (xs' ++ 10 :: rest)) =
        (match splitNL (xs' ++ 10 :: rest) with
         | [] => [[b]]
         | s :: ss => (b :: s) :: ss) by simp [splitNL, hb]]
    rw [ih h']

theorem not_mem_replicate_97 {x : Nat} (hx : x ≠ 97) : x ∉ List.replicate 1001 97 := by
  intro h
  exact absurd (List.eq_of_mem_replicate h) hx

theorem not_mem_crashPayload : (98 : Nat) ∉ List.replicate 1001 97 ++ [10] := by
  intro h
  rcases List.mem_append.mp h with h | h
  · exact absurd (List.eq_of_mem_replicate h) (by decide)
  · simp at h

theorem scanTokens_crashContent :
    scanTokens maxScanTokenSize crashContent = ([List.replicate 1001 97, [98]], false) := by
  have h10 : (10 : Nat) ∉ List.replicate 1001 97 := not_mem_replicate_97 (by decide)
  have h13 : (13 : Nat) ∉ List.replicate 1001 97 := not_mem_replicate_97 (by decide)
  have hsplit : splitNL crashContent = [List.replicate 1001 97, [98], []] := by
    unfold crashContent
    rw [show (List.replicate 1001 97 ++ [10, 98, 10] : List Nat) =
        List.replicate 1001 97 ++ 10 :: [98, 10] from rfl]
    rw [splitNL_append_nl _ _ h10]
    rfl
  unfold scanTokens
  rw [hsplit]
  have hlen : ¬ maxScanTokenSize ≤ (List.replicate 1001 97).length := by
    rw [List.length_replicate]
    decide
  rw [show scanSegs maxScanTokenSize [List.replicate 1001 97, [98], []] =
      (if maxScanTokenSize ≤ (List.replicate 1001 97).length then ([], true)
       else
        (dropCR (List.replicate 1001 97) :: (scanSegs maxScanTokenSize [[98], []]).1,
          (scanSegs maxScanTokenSize [[98], []]).2)) from rfl]
  rw [if_neg hlen, dropCR_of_not_mem h13]
  rfl

theorem streamer_crashContent :
    streamer (failAt 0) maxScanTokenSize [] crashContent =
      (⟨List.replicate 1001 97 ++ [10], List.replicate 1001 97 ++ [10],
        [List.replicate 1001 97 ++ [10]]⟩, true) := by
  have hflush : 1000 < (List.replicate 1001 97 ++ [10] : List Nat).length := by
    rw [List.length_append, List.length_replicate]
    decide
  have hscan : streamScan (failAt 0) [List.replicate 1001 97, [98]] ⟨[], [], []⟩ =
      (⟨List.replicate 1001 97 ++ [10], List.replicate 1001 97 ++ [10],
        [List.replicate 1001 97 ++ [10]]⟩, true) := by
    rw [show streamScan (failAt 0) [List.replicate 1001 97, [98]]
        (⟨[], [], []⟩ : StreamState) =
        (if 1000 < (List.replicate 1001 97 ++ [10] : List Nat).length then
          if failAt 0 (0 : Nat) = true then
            (⟨List.replicate 1001 97 ++ [10], List.replicate 1001 97 ++ [10],
              [List.replicate 1001 97 ++ [10]]⟩, true)
          else
            streamScan (failAt 0) [[98]]
              ⟨[], List.replicate 1001 97 ++ [10], [List.replicate 1001 97 ++ [10]]⟩
        else
          streamScan (failAt 0) [[98]]
            ⟨List.replicate 1001 97 ++ [10], [], []⟩) from rfl]
    rw [if_pos hflush, if_pos (show failAt 0 0 = true from rfl)]
  rw [show streamer (failAt 0) maxScanTokenSize [] crashContent =
      (if (streamScan (failAt 0) (scanTokens maxScanTokenSize crashContent).1
            ⟨[], [], []⟩).2 = true then
        ((streamScan (failAt 0) (scanTokens maxScanTokenSize crashContent).1
            ⟨[], [], []⟩).1, true)
      else
        (⟨(streamScan (failAt 0) (scanTokens maxScanTokenSize crashContent).1
              ⟨[], [], []⟩).1.logs,
          (streamScan (failAt 0) (scanTokens maxScanTokenSize crashContent).1
              ⟨[], [], []⟩).1.data ++
            (streamScan (failAt 0) (scanTokens maxScanTokenSize crashContent).1
              ⟨[], [], []⟩).1.logs,
          (streamScan (failAt 0) (scanTokens maxScanTokenSize crashContent).1
              ⟨[], [], []⟩).1.uploads ++
            [(streamScan (failAt 0) (scanTokens maxScanTokenSize crashContent).1
                ⟨[], [], []⟩).1.data ++
              (streamScan (failAt 0) (scanTokens maxScanTokenSize crashContent).1
                ⟨[], [], []⟩).1.logs]⟩, false)) from rfl]
  rw [scanTokens_crashContent,
    show (([List.replicate 1001 97, [98]], false) : List (List Nat) × Bool).1 =
      [List.replicate 1001 97, [98]] from rfl]
  rw [hscan]
  rfl

/-! ## Claim C9 -/

/-- C9: the Kubernetes runtime driver's `CreateVolume` and
`RemoveVolume` return nil for every pipeline, and `InspectVolume`
returns a nil byte slice and a nil error for every pipeline; none of
the three volume operations can fail or observe state. -/
theorem vela_C9_kubernetes_volume_stubs (b : Build) :
    kubernetesCreateVolume b = none ∧
    kubernetesRemoveVolume b = none ∧
    kubernetesInspectVolume b = (none, none) :=
  ⟨rfl, rfl, rfl⟩

/-! ## Claim C5 -/

/-- C5: `CreateStep` sets `BUILD_HOST` and `VELA_HOST` to the
executor's hostname, `VELA_VERSION` to the worker version,
`VELA_RUNTIME` to the fixed string `"docker"` and `VELA_DISTRIBUTION`
to the fixed string `"linux"`, for every container environment,
regardless of the runtime driver or host actually in use (the values
are hardcoded in the injection `CreateStep` performs first). -/
theorem vela_C5_wellknown_environment (hostname ver : String) (ctn : Container) :
    envGet (createStepInject hostname ver ctn).environment "BUILD_HOST" = hostname ∧
    envGet (createStepInject hostname ver ctn).environment "VELA_HOST" = hostname ∧
    envGet (createStepInject hostname ver ctn).environment "VELA_VERSION" = ver ∧
    envGet (createStepInject hostname ver ctn).environment "VELA_RUNTIME" = "docker" ∧
    envGet (createStepInject hostname ver ctn).environment "VELA_DISTRIBUTION" = "linux" := by
  unfold createStepInject injectEnv
  refine ⟨?_, ?_, ?_, ?_, ?_⟩
  · rw [envGet_envSet_ne _ "VELA_DISTRIBUTION" "linux" "BUILD_HOST" (by decide),
      envGet_envSet_ne _ "VELA_RUNTIME" "docker" "BUILD_HOST" (by decide),
      envGet_envSet_ne _ "VELA_VERSION" ver "BUILD_HOST" (by decide),
      envGet_envSet_ne _ "VELA_HOST" hostname "BUILD_HOST" (by decide),
      envGet_envSet_self]
  · rw [envGet_envSet_ne _ "VELA_DISTRIBUTION" "linux" "VELA_HOST" (by decide),
      envGet_envSet_ne _ "VELA_RUNTIME" "docker" "VELA_HOST" (by decide),
      envGet_envSet_ne _ "VELA_VERSION" ver "VELA_HOST" (by decide),
      envGet_envSet_self]
  · rw [envGet_envSet_ne _ "VELA_DISTRIBUTION" "linux" "VELA_VERSION" (by decide),
      envGet_envSet_ne _ "VELA_RUNTIME" "docker" "VELA_VERSION" (by decide),
      envGet_envSet_self]
  · rw [envGet_envSet_ne _ "VELA_DISTRIBUTION" "linux" "VELA_RUNTIME" (by decide),
      envGet_envSet_self]
  · rw [envGet_envSet_self]

/-! ## Claim C6 -/

/-- C6: for a container named `init`, `CreateStep`, `ExecStep` and
`DestroyStep` each return nil without invoking any runtime operation
(the trace of runtime calls is empty and no streamer is spawned;
`CreateStep` still performs the in-memory environment injection before
its `init` check). -/
theorem vela_C6_init_skipped (hostname ver : String) (oracle : RuntimeOracle)
    (si : Container → Except String Container)
    (mar : Container → Except String String)
    (unm : String → Container → Option Container)
    (st : ClientState) (ctn : Container) (h : ctn.name = "init") :
    createStep hostname ver oracle si mar unm ctn =
      (.ok (createStepInject hostname ver ctn), []) ∧
    execStep oracle st ctn = (.ok (), [], false) ∧
    destroyStep oracle ctn = (.ok (), []) := by
  refine ⟨?_, ?_, ?_⟩
  · simp [createStep, createStepInject, h]
  · simp [execStep, h]
  · simp [destroyStep, h]

/-- Witness for C6 at the concrete `init` container. -/
theorem vela_C6_witness :
    createStep "host" "v1" allOk .ok (fun _ => .ok "{}") (fun _ c => some c) initCtn =
      (.ok (createStepInject "host" "v1" initCtn), []) ∧
    execStep allOk ⟨[], []⟩ initCtn = (.ok (), [], false) ∧
    destroyStep allOk initCtn = (.ok (), []) :=
  vela_C6_init_skipped "host" "v1" allOk .ok (fun _ => .ok "{}") (fun _ c => some c)
    ⟨[], []⟩ initCtn rfl

/-! ## Claim C10 -/

/-- C10: for a container not named `init` whose ID has no log handle in
the step-log map, `ExecStep` fails with the source's error before any
runtime call (empty trace — in particular `RunContainer` was not
reached) and without spawning the streamer, so no step or log record
can have changed; a completed `PlanStep` is thus a precondition. -/
theorem vela_C10_missing_log_handle (oracle : RuntimeOracle) (st : ClientState)
    (ctn : Container) (h1 : ctn.name ≠ "init")
    (h2 : loadKV st.stepLogs ctn.id = none) :
    execStep oracle st ctn = (.error "unable to get step log from client", [], false) := by
  simp [execStep, h1, h2]

/-- Witness for C10: an empty client state has no handle for `echoCtn`. -/
theorem vela_C10_witness :
    execStep allOk ⟨[], []⟩ echoCtn = (.error "unable to get step log from client", [], false) :=
  vela_C10_missing_log_handle allOk ⟨[], []⟩ echoCtn (by decide) rfl

/-! ## Claim C3 -/

/-- C3: with the step log present and `RunContainer` succeeding, a
container with `Detach = true` makes `ExecStep` return nil right after
`RunContainer` (no `WaitContainer`, no `InspectContainer` in the
trace), while a container with `Detach = false` leads to the trace
`RunContainer`, `WaitContainer`, `InspectContainer`, in that order
(stated on the run where the latter two succeed as well). -/
theorem vela_C3_detach_run_wait_inspect (oracle : RuntimeOracle) (st : ClientState)
    (ctn : Container) (l : Log) (hinit : ctn.name ≠ "init")
    (hl : loadKV st.stepLogs ctn.id = some l)
    (hrun : oracle.run ctn = .ok ()) :
    (ctn.detach = true → execStep oracle st ctn = (.ok (), [.runContainer ctn], true)) ∧
    (ctn.detach = false → oracle.wait ctn = .ok () → oracle.inspect ctn = .ok () →
      execStep oracle st ctn =
        (.ok (), [.runContainer ctn, .waitContainer ctn, .inspectContainer ctn], true)) := by
  constructor
  · intro hd
    simp [execStep, hinit, hl, hrun, hd]
  · intro hd hw hi
    simp [execStep, hinit, hl, hrun, hd, hw, hi]

/-- Witness for C3, applied once to a detached and once to a
non-detached container (log handles present, runtime succeeding). -/
theorem vela_C3_witness :
    execStep allOk ⟨[], [("step_2", ⟨[]⟩)]⟩ detachCtn =
      (.ok (), [.runContainer detachCtn], true) ∧
    execStep allOk ⟨[], [("step_1", ⟨[]⟩)]⟩ echoCtn =
      (.ok (), [.runContainer echoCtn, .waitContainer echoCtn, .inspectContainer echoCtn],
        true) :=
  ⟨(vela_C3_detach_run_wait_inspect allOk ⟨[], [("step_2", ⟨[]⟩)]⟩ detachCtn ⟨[]⟩
      (by decide) rfl rfl).1 rfl,
   (vela_C3_detach_run_wait_inspect allOk ⟨[], [("step_1", ⟨[]⟩)]⟩ echoCtn ⟨[]⟩
      (by decide) rfl rfl).2 rfl rfl rfl⟩

/-! ## Claim C7 -/

/-- C7: `PlanStep` uploads via `Step.Update` an initial record with
`Status = Running`, `Started = now`, and host/runtime/distribution read
from the container's `VELA_HOST` / `VELA_RUNTIME` /
`VELA_DISTRIBUTION` environment entries; the record it stores in the
step map under the container's ID is the API-returned record with the
synthetic default status `Success`, and the log handle returned by
`Log.GetStep` is stored under the same container ID. -/
theorem vela_C7_planstep (now : Int) (api : VelaOracle) (st : ClientState)
    (ctn : Container) (s1 : Step) (l : Log)
    (hup : api.stepUpdate (planStepRecord now ctn) = .ok s1)
    (hlog : api.logGetStep s1.number = .ok l) :
    (planStep now api st ctn).2 = planStepRecord now ctn ∧
    (planStepRecord now ctn).status = statusRunning ∧
    (planStepRecord now ctn).started = now ∧
    (planStepRecord now ctn).host = envGet ctn.environment "VELA_HOST" ∧
    (planStepRecord now ctn).runtime = envGet ctn.environment "VELA_RUNTIME" ∧
    (planStepRecord now ctn).distribution = envGet ctn.environment "VELA_DISTRIBUTION" ∧
    (planStep now api st ctn).1 =
      .ok { steps := storeKV st.steps ctn.id { s1 with status := statusSuccess }
            stepLogs := storeKV st.stepLogs ctn.id l } := by
  refine ⟨?_, rfl, rfl, rfl, rfl, rfl, ?_⟩
  · simp [planStep, hup, hlog]
  · simp [planStep, hup, hlog]

/-- Witness for C7 with the echoing control-plane oracle. -/
theorem vela_C7_witness :
    (planStep 5 apiEcho ⟨[], []⟩ echoCtn).2 = planStepRecord 5 echoCtn ∧
    (planStepRecord 5 echoCtn).status = statusRunning ∧
    (planStepRecord 5 echoCtn).started = 5 ∧
    (planStepRecord 5 echoCtn).host = envGet echoCtn.environment "VELA_HOST" ∧
    (planStepRecord 5 echoCtn).runtime = envGet echoCtn.environment "VELA_RUNTIME" ∧
    (planStepRecord 5 echoCtn).distribution = envGet echoCtn.environment "VELA_DISTRIBUTION" ∧
    (planStep 5 apiEcho ⟨[], []⟩ echoCtn).1 =
      .ok { steps := storeKV [] echoCtn.id { planStepRecord 5 echoCtn with status := statusSuccess }
            stepLogs := storeKV [] echoCtn.id ⟨[]⟩ } :=
  vela_C7_planstep 5 apiEcho ⟨[], []⟩ echoCtn (planStepRecord 5 echoCtn) ⟨[]⟩ rfl rfl

/-! ## Claim C8 -/

/-- C8: with uploads succeeding, the streamer's upload payloads and its
final record are exactly those of the flush discipline the
specification describes (`specStream`): a flush — record concatenation,
upload, buffer reset — happens exactly on each scanned line whose
append makes the local buffer exceed 1000 bytes, and one final upload
of the remaining (possibly empty) buffer happens when the tail stream
closes. -/
theorem vela_C8_flush_threshold (init content : List Nat) :
    (streamer noFail maxScanTokenSize init content).1.uploads =
      (specStream init (scanTokens maxScanTokenSize content).1 []).2 ∧
    (streamer noFail maxScanTokenSize init content).1.data =
      (specStream init (scanTokens maxScanTokenSize content).1 []).1 := by
  obtain ⟨h1, h2, h3⟩ :=
    streamScan_specStream (scanTokens maxScanTokenSize content).1 [] init []
  simp only [streamer]
  rw [h1]
  simp only [Bool.false_eq_true, if_false]
  exact ⟨by simpa using h2, h3⟩

/-! ## Claim C2 -/

/-- C2 as stated is false: the byte `13` (`\x0d`) of the stream
`"\x0d\x0a"` is stripped by the scanner's `ScanLines` split and appears
in no payload passed to `Log.UpdateStep`, although the tail was open
and every upload succeeded. -/
theorem vela_C2_counterexample :
    (13 : Nat) ∈ ([13, 10] : List Nat) ∧
    ∀ p ∈ (streamer noFail maxScanTokenSize [] [13, 10]).1.uploads, (13 : Nat) ∉ p := by
  decide

/-- C2 amended: every byte of the tail-stream content appears in at
least one payload passed to `Log.UpdateStep`, provided no upload fails,
the content carries no carriage-return bytes (which `ScanLines` strips
before a newline or at end of stream) and every line is shorter than
the scanner's 64 KiB token limit (beyond which the scanner stops with
`ErrTooLong`). -/
theorem vela_C2_at_least_once (init content : List Nat) (b : Nat) (hb : b ∈ content)
    (hcr : (13 : Nat) ∉ content)
    (hlen : ∀ seg ∈ splitNL content, seg.length < maxScanTokenSize) :
    ∃ p ∈ (streamer noFail maxScanTokenSize init content).1.uploads, b ∈ p := by
  have hcrseg : ∀ seg ∈ splitNL content, (13 : Nat) ∉ seg := by
    intro seg hs h13
    exact hcr (mem_splitNL hs h13)
  have hjoin := scanSegs_join (M := maxScanTokenSize) (splitNL content) hlen hcrseg
  have hbflat : b ∈ flatJoin (scanTokens maxScanTokenSize content).1 := by
    have hbj : b ∈ joinNL (splitNL content) := by rwa [joinNL_splitNL]
    unfold scanTokens
    rcases hjoin with h | h
    · rwa [h]
    · rw [h]
      exact List.mem_append_left _ hbj
  have hscan := streamScan_noFail (scanTokens maxScanTokenSize content).1 ⟨[], init, []⟩
  have hstream : (streamer noFail maxScanTokenSize init content).1.uploads =
      (streamScan noFail (scanTokens maxScanTokenSize content).1 ⟨[], init, []⟩).1.uploads ++
        [(streamScan noFail (scanTokens maxScanTokenSize content).1 ⟨[], init, []⟩).1.data ++
          (streamScan noFail (scanTokens maxScanTokenSize content).1 ⟨[], init, []⟩).1.logs] := by
    simp only [streamer]
    rw [hscan.1]
    simp
  refine ⟨(streamScan noFail (scanTokens maxScanTokenSize content).1 ⟨[], init, []⟩).1.data ++
      (streamScan noFail (scanTokens maxScanTokenSize content).1 ⟨[], init, []⟩).1.logs, ?_, ?_⟩
  · rw [hstream]
    exact List.mem_append_right _ (List.mem_singleton.mpr rfl)
  · rw [hscan.2]
    exact List.mem_append_right _ hbflat

/-- Witness for the amended C2 on a small concrete stream. -/
theorem vela_C2_witness :
    ∃ p ∈ (streamer noFail maxScanTokenSize [] [97, 10, 98]).1.uploads, (98 : Nat) ∈ p :=
  vela_C2_at_least_once [] [97, 10, 98] 98 (by decide) (by decide) (by decide)

/-! ## Claim C1 -/

/-- C1 as stated is false: on a stream whose first scanned line (1001
bytes of `a`) triggers a flush whose upload fails, the streamer does
not continue; the following line (`b`) is never read — the byte `98`
appears in no upload payload and not in the final record data, and the
goroutine returned early. -/
theorem vela_C1_counterexample :
    (98 : Nat) ∈ crashContent ∧
    (streamer (failAt 0) maxScanTokenSize [] crashContent).2 = true ∧
    (∀ p ∈ (streamer (failAt 0) maxScanTokenSize [] crashContent).1.uploads,
      (98 : Nat) ∉ p) ∧
    (98 : Nat) ∉ (streamer (failAt 0) maxScanTokenSize [] crashContent).1.data := by
  refine ⟨?_, ?_, ?_, ?_⟩
  · unfold crashContent
    exact List.mem_append_right _ (by decide)
  · rw [streamer_crashContent]
  · rw [streamer_crashContent]
    intro p hp
    rw [List.mem_singleton] at hp
    subst hp
    exact not_mem_crashPayload
  · rw [streamer_crashContent]
    exact not_mem_crashPayload

/-- C1 amended: when the first failing upload is the `k`-th one and it
happens mid-stream (the goroutine aborts), the streamer stops instead
of logging and continuing: exactly `k + 1` upload calls were made, the
last — failing — payload equals the final record data, and no line
after the failure point is read, appended or flushed (the error is
returned from the goroutine, whose result is discarded). -/
theorem vela_C1_stop_on_upload_failure (init content : List Nat) (k : Nat)
    (h : (streamer (failAt k) maxScanTokenSize init content).2 = true) :
    (streamer (failAt k) maxScanTokenSize init content).1.uploads.length = k + 1 ∧
    (streamer (failAt k) maxScanTokenSize init content).1.uploads.getLast? =
      some (streamer (failAt k) maxScanTokenSize init content).1.data := by
  simp only [streamer] at h ⊢
  by_cases hcase : (streamScan (failAt k) (scanTokens maxScanTokenSize content).1
      ⟨[], init, []⟩).2 = true
  · rw [if_pos hcase]
    exact streamScan_failAt (scanTokens maxScanTokenSize content).1 ⟨[], init, []⟩
      (Nat.zero_le k) hcase
  · rw [if_neg hcase] at h
    simp at h

/-- Witness for the amended C1: the failing-first-upload run on
`crashContent` aborts after exactly one upload whose payload is the
final record. -/
theorem vela_C1_witness :
    (streamer (failAt 0) maxScanTokenSize [] crashContent).1.uploads.length = 0 + 1 ∧
    (streamer (failAt 0) maxScanTokenSize [] crashContent).1.uploads.getLast? =
      some (streamer (failAt 0) maxScanTokenSize [] crashContent).1.data :=
  vela_C1_stop_on_upload_failure [] crashContent 0 (by rw [streamer_crashContent])

/-! ## Claim C4 -/

theorem takeWhile_append_stop (p : Char → Bool) (xs : List Char) (y : Char)
    (rest : List Char) (hall : ∀ c ∈ xs, p c = true) (hy : p y = false) :
    (xs ++ y :: rest).takeWhile p = xs := by
  induction xs with
  | nil => simp [List.takeWhile, hy]
  | cons a xs' ih =>
    have ha : p a = true := hall a (by simp)
    rw [List.cons_append, List.takeWhile_cons, ha]
    simp only [if_true]
    rw [ih (fun c hc => hall c (List.mem_cons_of_mem _ hc))]

theorem dropWhile_append_stop (p : Char → Bool) (xs : List Char) (y : Char)
    (rest : List Char) (hall : ∀ c ∈ xs, p c = true) (hy : p y = false) :
    (xs ++ y :: rest).dropWhile p = y :: rest := by
  induction xs with
  | nil => simp [List.dropWhile, hy]
  | cons a xs' ih =>
    have ha : p a = true := hall a (by simp)
    rw [List.cons_append, List.dropWhile_cons, ha]
    simp only [if_true]
    exact ih (fun c hc => hall c (List.mem_cons_of_mem _ hc))

theorem mk_toList (s : String) : String.mk s.toList = s := by
  cases s
  rfl

theorem substAux_braced (f : String → String) (fuel : Nat) (nt : List Char)
    (h : ∀ c ∈ nt, isIdentChar c = true) :
    substAux f (fuel + 2) ('$' :: '{' :: (nt ++ ['}'])) =
      .ok ((f (String.mk nt)).toList) := by
  rw [show substAux f (fuel + 2) ('$' :: '{' :: (nt ++ ['}'])) =
      (match (nt ++ ['}']).dropWhile isIdentChar with
       | '}' :: tail =>
         (match substAux f (fuel + 1) tail with
          | .ok out =>
            .ok ((f (String.mk ((nt ++ ['}']).takeWhile isIdentChar))).toList ++ out)
          | .error e => .error e)
       | _ => .error "bad substitution") from rfl]
  rw [show (nt ++ ['}'] : List Char) = nt ++ '}' :: [] from rfl]
  rw [dropWhile_append_stop isIdentChar nt '}' [] h (by decide),
    takeWhile_append_stop isIdentChar nt '}' [] h (by decide)]
  show (match substAux f (fuel + 1) ([] : List Char) with
    | .ok out => Except.ok ((f (String.mk nt)).toList ++ out)
    | .error e => Except.error e) = .ok ((f (String.mk nt)).toList)
  show Except.ok ((f (String.mk nt)).toList ++ ([] : List Char)) =
    .ok ((f (String.mk nt)).toList)
  rw [List.append_nil]

theorem envsubstEval_braced (f : String → String) (name : String)
    (h : ∀ c ∈ name.toList, isIdentChar c = true) :
    envsubstEval ("$\x7b" ++ name ++ "\x7d") f = .ok (f name) := by
  have htl : ("$\x7b" ++ name ++ "\x7d").toList =
      '$' :: '{' :: (name.toList ++ ['}']) := by
    show ("$\x7b" ++ name ++ "\x7d").data = _
    rw [String.data_append, String.data_append]
    rfl
  unfold envsubstEval
  rw [htl]
  rw [show ('$' :: '{' :: (name.toList ++ ['}'])).length + 1 =
      (name.toList.length + 2) + 2 by simp [List.length_append]]
  rw [substAux_braced f (name.toList.length + 2) name.toList h]
  simp [mk_toList]

/-- C4: during `CreateStep`'s substitution over the serialized
configuration, the namespace is the container's own environment: a
referenced name present in the map substitutes to its value (first
clause; value without newline), an absent name substitutes to the
empty string (second clause), a newline-bearing value is replaced by
its `%q`-quoted form (third clause), and a template on which
`envsubst.Eval` fails makes `CreateStep` fail the step with the
substitution error — the kind the specification's taxonomy calls
`InvalidConfiguration` (fourth clause). -/
theorem vela_C4_env_substitution :
    (∀ (env : Env) (name v : String), (∀ c ∈ name.toList, isIdentChar c = true) →
      envGet? env name = some v → containsNewline v = false →
      envsubstEval ("$\x7b" ++ name ++ "\x7d") (subFunc env) = .ok v) ∧
    (∀ (env : Env) (name : String), (∀ c ∈ name.toList, isIdentChar c = true) →
      envGet? env name = none →
      envsubstEval ("$\x7b" ++ name ++ "\x7d") (subFunc env) = .ok "") ∧
    (∀ (env : Env) (name v : String), (∀ c ∈ name.toList, isIdentChar c = true) →
      envGet? env name = some v → containsNewline v = true →
      envsubstEval ("$\x7b" ++ name ++ "\x7d") (subFunc env) = .ok (goQuote v)) ∧
    (∀ (hostname ver : String) (oracle : RuntimeOracle)
      (si : Container → Except String Container)
      (mar : Container → Except String String)
      (unm : String → Container → Option Container)
      (ctn c2 : Container) (body e : String),
      (createStepInject hostname ver ctn).name ≠ "init" →
      oracle.setup (createStepInject hostname ver ctn) = .ok () →
      si (createStepInject hostname ver ctn) = .ok c2 →
      mar c2 = .ok body →
      envsubstEval body (subFunc c2.environment) = .error e →
      createStep hostname ver oracle si mar unm ctn =
        (.error ("unable to substitute environment variables: " ++ e),
          [.setupContainer (createStepInject hostname ver ctn)])) := by
  refine ⟨?_, ?_, ?_, ?_⟩
  · intro env name v hid hsome hnl
    rw [envsubstEval_braced _ _ hid]
    unfold subFunc
    rw [show envGet env name = v by simp [envGet, hsome]]
    rw [hnl]
    simp
  · intro env name hid hnone
    rw [envsubstEval_braced _ _ hid]
    unfold subFunc
    rw [show envGet env name = "" by simp [envGet, hnone]]
    rfl
  · intro env name v hid hsome hnl
    rw [envsubstEval_braced _ _ hid]
    unfold subFunc
    rw [show envGet env name = v by simp [envGet, hsome]]
    rw [hnl]
    simp
  · intro hostname ver oracle si mar unm ctn c2 body e hne hsetup hsi hmar heval
    unfold createStep
    rw [if_neg hne]
    simp only [hsetup, hsi, hmar, heval]

/-- Witness for C4: each clause applied at concrete inputs. -/
theorem vela_C4_witness :
    envsubstEval "$\x7bA\x7d" (subFunc [("A", "1")]) = .ok "1" ∧
    envsubstEval "$\x7bB\x7d" (subFunc [("A", "1")]) = .ok "" ∧
    envsubstEval "$\x7bA\x7d" (subFunc [("A", "x\ny")]) = .ok (goQuote "x\ny") ∧
    createStep "host" "v1" allOk .ok (fun _ => .ok "$\x7b") (fun _ c => some c) echoCtn =
      (.error ("unable to substitute environment variables: " ++ "bad substitution"),
        [.setupContainer (createStepInject "host" "v1" echoCtn)]) :=
  ⟨vela_C4_env_substitution.1 [("A", "1")] "A" "1" (by decide) rfl rfl,
   vela_C4_env_substitution.2.1 [("A", "1")] "B" (by decide) rfl,
   vela_C4_env_substitution.2.2.1 [("A", "x\ny")] "A" "x\ny" (by decide) rfl rfl,
   vela_C4_env_substitution.2.2.2 "host" "v1" allOk .ok (fun _ => .ok "$\x7b")
     (fun _ c => some c) echoCtn (createStepInject "host" "v1" echoCtn) "$\x7b"
     "bad substitution" (by decide) rfl rfl rfl rfl⟩

end Vela
